import Mathlib

/-!
Verification of the mautrix-max bridge (Python) against its natural-language
specification.  Each section embeds the relevant part of the source as
executable Lean definitions and proves or refutes the frozen claims about it.

Python string primitives used by the source are modelled on `List Char`:
`str.replace`, `str.strip`, `str.split`, `str.startswith`, `str.endswith`
and `int(...)` parsing.  The replace/split scans are written with an explicit
fuel argument (the list length) so that they are structurally recursive and
evaluate by `rfl`/`decide`; a fuel of at least the list length never runs out.
-/

/-- Whitespace characters stripped by Python `str.strip()` (ASCII fragment). -/
def isPySpace (c : Char) : Bool :=
  c == ' ' || c == '\t' || c == '\n' || c == '\r' || c == '\x0b' || c == '\x0c'

/-- Python `str.strip()`: remove leading and trailing whitespace. -/
def pyStrip (l : List Char) : List Char :=
  ((l.dropWhile isPySpace).reverse.dropWhile isPySpace).reverse

/-- Fuelled scan for Python `str.replace(pat, rep)`: leftmost, non-overlapping
occurrences of `pat` are replaced by `rep`.  With fuel `≥` the list length the
fuel never runs out.  Callers only use non-empty patterns. -/
def pyReplaceAux (pat rep : List Char) : Nat → List Char → List Char
  | 0, l => l
  | _, [] => []
  | fuel + 1, c :: rest =>
    if pat ≠ [] ∧ pat.isPrefixOf (c :: rest) then
      rep ++ pyReplaceAux pat rep fuel (rest.drop (pat.length - 1))
    else
      c :: pyReplaceAux pat rep fuel rest

/-- Python `s.replace(pat, rep)` (replaces every occurrence, left to right). -/
def pyReplace (pat rep l : List Char) : List Char :=
  pyReplaceAux pat rep l.length l

/-- Python `pat in s` substring test. -/
def containsSub (pat : List Char) : List Char → Bool
  | [] => pat.isEmpty
  | c :: rest => pat.isPrefixOf (c :: rest) || containsSub pat rest

/-- Fuelled scan for Python `str.split(sep)` with a non-empty separator.
Returns the first part and the list of remaining parts. -/
def pySplitAux (sep : List Char) : Nat → List Char → List Char × List (List Char)
  | 0, l => (l, [])
  | _, [] => ([], [])
  | fuel + 1, c :: rest =>
    if sep ≠ [] ∧ sep.isPrefixOf (c :: rest) then
      let p := pySplitAux sep fuel (rest.drop (sep.length - 1))
      ([], p.1 :: p.2)
    else
      let p := pySplitAux sep fuel rest
      (c :: p.1, p.2)

/-- Python `s.split(sep)` for a non-empty separator: always a non-empty list
of parts. -/
def pySplit (sep l : List Char) : List (List Char) :=
  (pySplitAux sep l.length l).1 :: (pySplitAux sep l.length l).2

section PyStringLemmas

variable {c0 c : Char} {pt rep a b l : List Char}

theorem isPrefixOf_cons_of_head_ne (h : c0 ≠ c) :
    ((c0 :: pt).isPrefixOf (c :: l)) = false := by
  simp [List.isPrefixOf, h]

theorem isPrefixOf_append_self : ∀ l t : List Char, (l.isPrefixOf (l ++ t)) = true
  | [], _ => by simp [List.isPrefixOf]
  | c :: rest, t => by simp [List.isPrefixOf, isPrefixOf_append_self rest t]

/-- A scan whose pattern head never occurs in the list leaves it unchanged. -/
theorem pyReplaceAux_no_head (h : c0 ∉ l) :
    ∀ fuel, pyReplaceAux (c0 :: pt) rep fuel l = l := by
  induction l with
  | nil => intro fuel; cases fuel <;> rfl
  | cons c rest ih =>
    intro fuel
    cases fuel with
    | zero => rfl
    | succ f =>
      have hc : c0 ≠ c := fun he => h (he ▸ List.mem_cons_self c rest)
      have hrest : c0 ∉ rest := fun hm => h (List.mem_cons_of_mem c hm)
      simp [pyReplaceAux, isPrefixOf_cons_of_head_ne hc, ih hrest]

/-- Scanning `a ++ b` where the pattern head does not occur in `a` keeps `a`
and continues on `b` with the fuel spent on `a` removed. -/
theorem pyReplaceAux_append (h : c0 ∉ a) :
    ∀ fuel, a.length ≤ fuel →
      pyReplaceAux (c0 :: pt) rep fuel (a ++ b) =
        a ++ pyReplaceAux (c0 :: pt) rep (fuel - a.length) b := by
  induction a with
  | nil => intro fuel _; simp
  | cons c rest ih =>
    intro fuel hfuel
    rw [List.length_cons] at hfuel
    cases fuel with
    | zero => exact absurd hfuel (by omega)
    | succ f =>
      have hc : c0 ≠ c := fun he => h (he ▸ List.mem_cons_self c rest)
      have hrest : c0 ∉ rest := fun hm => h (List.mem_cons_of_mem c hm)
      have hne := @isPrefixOf_cons_of_head_ne c0 c pt (rest ++ b) hc
      have hle : rest.length ≤ f := by omega
      have harith : f + 1 - (c :: rest).length = f - rest.length := by
        rw [List.length_cons]; omega
      rw [List.cons_append]
      simp only [pyReplaceAux, hne, Bool.false_eq_true, and_false, if_false]
      rw [ih hrest f hle, harith, List.cons_append]

/-- Scanning a list that starts with the pattern replaces that occurrence and
continues after it. -/
theorem pyReplaceAux_pat_head (f : Nat) :
    pyReplaceAux (c0 :: pt) rep (f + 1) ((c0 :: pt) ++ b) =
      rep ++ pyReplaceAux (c0 :: pt) rep f b := by
  have hpre := isPrefixOf_append_self (c0 :: pt) b
  have hdrop : (pt ++ b).drop ((c0 :: pt).length - 1) = b := by
    rw [List.length_cons, Nat.add_sub_cancel, List.drop_left]
  rw [List.cons_append]
  rw [List.cons_append] at hpre
  simp only [pyReplaceAux, hpre, ne_eq, List.cons_ne_nil, not_false_iff, true_and, if_true,
    hdrop]

/-- `pyReplace` on `a ++ pat ++ b` with the pattern head absent from `a` and
`b`: exactly the middle occurrence is replaced. -/
theorem pyReplace_append_pat (ha : c0 ∉ a) (hb : c0 ∉ b) :
    pyReplace (c0 :: pt) rep (a ++ ((c0 :: pt) ++ b)) = a ++ (rep ++ b) := by
  unfold pyReplace
  rw [pyReplaceAux_append ha _ (by simp)]
  have h2 : (a ++ ((c0 :: pt) ++ b)).length - a.length = (pt.length + b.length) + 1 := by
    simp only [List.length_append, List.length_cons]
    omega
  rw [h2, pyReplaceAux_pat_head, pyReplaceAux_no_head hb]

theorem pySplitAux_no_head (h : c0 ∉ l) :
    ∀ fuel, pySplitAux (c0 :: pt) fuel l = (l, []) := by
  induction l with
  | nil => intro fuel; cases fuel <;> rfl
  | cons c rest ih =>
    intro fuel
    cases fuel with
    | zero => rfl
    | succ f =>
      have hc : c0 ≠ c := fun he => h (he ▸ List.mem_cons_self c rest)
      have hrest : c0 ∉ rest := fun hm => h (List.mem_cons_of_mem c hm)
      simp [pySplitAux, isPrefixOf_cons_of_head_ne hc, ih hrest]

theorem pySplitAux_append (h : c0 ∉ a) :
    ∀ fuel, a.length ≤ fuel →
      pySplitAux (c0 :: pt) fuel (a ++ b) =
        (a ++ (pySplitAux (c0 :: pt) (fuel - a.length) b).1,
         (pySplitAux (c0 :: pt) (fuel - a.length) b).2) := by
  induction a with
  | nil => intro fuel _; simp
  | cons c rest ih =>
    intro fuel hfuel
    rw [List.length_cons] at hfuel
    cases fuel with
    | zero => exact absurd hfuel (by omega)
    | succ f =>
      have hc : c0 ≠ c := fun he => h (he ▸ List.mem_cons_self c rest)
      have hrest : c0 ∉ rest := fun hm => h (List.mem_cons_of_mem c hm)
      have hne := @isPrefixOf_cons_of_head_ne c0 c pt (rest ++ b) hc
      have hle : rest.length ≤ f := by omega
      have harith : f + 1 - (c :: rest).length = f - rest.length := by
        rw [List.length_cons]; omega
      rw [List.cons_append]
      simp only [pySplitAux, hne, Bool.false_eq_true, and_false, if_false]
      rw [ih hrest f hle, harith, List.cons_append]

theorem pySplitAux_pat_head (f : Nat) :
    pySplitAux (c0 :: pt) (f + 1) ((c0 :: pt) ++ b) =
      ([], (pySplitAux (c0 :: pt) f b).1 :: (pySplitAux (c0 :: pt) f b).2) := by
  have hpre := isPrefixOf_append_self (c0 :: pt) b
  have hdrop : (pt ++ b).drop ((c0 :: pt).length - 1) = b := by
    rw [List.length_cons, Nat.add_sub_cancel, List.drop_left]
  rw [List.cons_append]
  rw [List.cons_append] at hpre
  simp only [pySplitAux, hpre, ne_eq, List.cons_ne_nil, not_false_iff, true_and, if_true,
    hdrop]

/-- `pySplit` of `a ++ pat ++ b` with the pattern head absent from `a` and `b`
is exactly the two parts `[a, b]`. -/
theorem pySplit_append_pat (ha : c0 ∉ a) (hb : c0 ∉ b) :
    pySplit (c0 :: pt) (a ++ ((c0 :: pt) ++ b)) = [a, b] := by
  unfold pySplit
  rw [pySplitAux_append ha _ (by simp)]
  have h2 : (a ++ ((c0 :: pt) ++ b)).length - a.length = (pt.length + b.length) + 1 := by
    simp only [List.length_append, List.length_cons]
    omega
  rw [h2, pySplitAux_pat_head, pySplitAux_no_head hb]
  simp

theorem containsSub_append_pat (a : List Char) :
    containsSub (c0 :: pt) (a ++ ((c0 :: pt) ++ b)) = true := by
  induction a with
  | nil =>
    have hpre := isPrefixOf_append_self (c0 :: pt) b
    rw [List.cons_append] at hpre
    rw [List.nil_append, List.cons_append]
    simp only [containsSub, hpre, Bool.true_or]
  | cons c rest ih =>
    rw [List.cons_append]
    simp only [containsSub, ih, Bool.or_true]

theorem dropWhileSpace_eq_self (h : ∀ c ∈ l, isPySpace c = false) :
    l.dropWhile isPySpace = l := by
  cases l with
  | nil => rfl
  | cons c rest => simp [List.dropWhile_cons, h c (List.mem_cons_self c rest)]

/-- A list none of whose characters is Python whitespace is unchanged by
`strip()`. -/
theorem pyStrip_of_no_space (h : ∀ c ∈ l, isPySpace c = false) : pyStrip l = l := by
  unfold pyStrip
  rw [dropWhileSpace_eq_self h, dropWhileSpace_eq_self, List.reverse_reverse]
  intro c hc
  exact h c (by simpa using hc)

end PyStringLemmas

/-! ## Python `int(...)` and `str(n)` models -/

/-- Scanner states validating the digit core of a Python `int(...)` literal
(underscores allowed only between digits). -/
inductive PyIntSt
  | start
  | afterDigit
  | afterUnd
deriving DecidableEq, Repr

def pyIntStep : PyIntSt → Char → Option PyIntSt
  | .start, c => if c.isDigit then some .afterDigit else none
  | .afterDigit, c =>
      if c.isDigit then some .afterDigit
      else if c == '_' then some .afterUnd else none
  | .afterUnd, c => if c.isDigit then some .afterDigit else none

def pyIntScan : Option PyIntSt → Char → Option PyIntSt
  | none, _ => none
  | some st, c => pyIntStep st c

def pyIntValid (l : List Char) : Bool :=
  l.foldl pyIntScan (some .start) == some .afterDigit

/-- Decimal value of a digit string, most significant digit first. -/
def digitsVal (l : List Char) : Nat :=
  l.foldl (fun a c => a * 10 + (c.toNat - 48)) 0

/-- Python `int(s)` for ASCII decimal input: optional surrounding whitespace,
optional sign, digits with single underscores only between digits.  Returns
`none` where Python raises `ValueError`. -/
def pyInt (l : List Char) : Option Int :=
  match pyStrip l with
  | [] => none
  | c :: rest =>
    if c == '+' then
      if pyIntValid rest then
        some ((digitsVal (rest.filter (fun d => !(d == '_')))) : Int)
      else none
    else if c == '-' then
      if pyIntValid rest then
        some (-(digitsVal (rest.filter (fun d => !(d == '_'))) : Int))
      else none
    else
      if pyIntValid (c :: rest) then
        some ((digitsVal ((c :: rest).filter (fun d => !(d == '_')))) : Int)
      else none

def digitChar (d : Nat) : Char := Char.ofNat (48 + d)

/-- Fuelled decimal rendering, most significant digit first; models Python
`str(n)` for positive `n` when the fuel is at least the digit count. -/
def natStrAux : Nat → Nat → List Char
  | 0, _ => []
  | _ + 1, 0 => []
  | fuel + 1, n + 1 => natStrAux fuel ((n + 1) / 10) ++ [digitChar ((n + 1) % 10)]

/-- Python `str(n)` for a natural number. -/
def natStr (n : Nat) : List Char :=
  if n = 0 then ['0'] else natStrAux n n

section PyIntLemmas

theorem digitChar_toNat {d : Nat} (h : d < 10) : (digitChar d).toNat = 48 + d := by
  interval_cases d <;> decide

theorem digitChar_isDigit {d : Nat} (h : d < 10) : (digitChar d).isDigit = true := by
  interval_cases d <;> decide

theorem digitChar_props {d : Nat} (h : d < 10) :
    isPySpace (digitChar d) = false ∧ (digitChar d == '+') = false ∧
      (digitChar d == '-') = false ∧ (digitChar d == '_') = false ∧
      digitChar d ≠ ':' ∧ digitChar d ≠ '\x7b' := by
  interval_cases d <;> exact (by decide)

theorem natStrAux_chars :
    ∀ fuel n c, c ∈ natStrAux fuel n → ∃ d, d < 10 ∧ c = digitChar d := by
  intro fuel
  induction fuel with
  | zero => intro n c hc; simp [natStrAux] at hc
  | succ f ih =>
    intro n c hc
    cases n with
    | zero => simp [natStrAux] at hc
    | succ m =>
      simp only [natStrAux, List.mem_append, List.mem_singleton] at hc
      cases hc with
      | inl h => exact ih _ _ h
      | inr h => exact ⟨(m + 1) % 10, Nat.mod_lt _ (by omega), h⟩

theorem natStrAux_ne_nil {fuel n : Nat} (hn : n ≠ 0) (hf : fuel ≠ 0) :
    natStrAux fuel n ≠ [] := by
  cases fuel with
  | zero => exact absurd rfl hf
  | succ f =>
    cases n with
    | zero => exact absurd rfl hn
    | succ m => simp [natStrAux]

theorem natStrAux_val : ∀ fuel n, n ≤ fuel → digitsVal (natStrAux fuel n) = n := by
  intro fuel
  induction fuel with
  | zero => intro n h; have : n = 0 := by omega
            subst this; rfl
  | succ f ih =>
    intro n h
    cases n with
    | zero => rfl
    | succ m =>
      have hq : (m + 1) / 10 ≤ f := by
        have := Nat.div_lt_self (Nat.succ_pos m) (by norm_num : 1 < 10)
        omega
      have hr : (m + 1) % 10 < 10 := Nat.mod_lt _ (by omega)
      have hih := ih ((m + 1) / 10) hq
      unfold digitsVal at hih ⊢
      simp only [natStrAux, List.foldl_append, List.foldl_cons, List.foldl_nil]
      rw [hih, digitChar_toNat hr]
      omega

theorem foldl_scan_digits {l : List Char} (h : ∀ c ∈ l, c.isDigit = true) :
    l.foldl pyIntScan (some PyIntSt.afterDigit) = some PyIntSt.afterDigit := by
  induction l with
  | nil => rfl
  | cons c rest ih =>
    have hc := h c (List.mem_cons_self c rest)
    have hrest : ∀ x ∈ rest, x.isDigit = true := fun x hx => h x (List.mem_cons_of_mem c hx)
    simp only [List.foldl_cons, pyIntScan, pyIntStep, hc, if_true]
    exact ih hrest

theorem pyIntValid_digits {c : Char} {rest : List Char}
    (hc : c.isDigit = true) (hrest : ∀ x ∈ rest, x.isDigit = true) :
    pyIntValid (c :: rest) = true := by
  unfold pyIntValid
  simp only [List.foldl_cons, pyIntScan, pyIntStep, hc, if_true]
  rw [foldl_scan_digits hrest]
  rfl

/-- `pyInt` on a non-empty pure digit string returns its decimal value. -/
theorem pyInt_digits (l : List Char) (hne : l ≠ [])
    (hd : ∀ c ∈ l, ∃ d, d < 10 ∧ c = digitChar d) :
    pyInt l = some ((digitsVal l : Nat) : Int) := by
  have hnospace : ∀ c ∈ l, isPySpace c = false := by
    intro c hc
    obtain ⟨d, hdlt, rfl⟩ := hd c hc
    exact (digitChar_props hdlt).1
  have hstrip := pyStrip_of_no_space hnospace
  cases hl : l with
  | nil => exact absurd hl hne
  | cons c rest =>
    subst hl
    obtain ⟨d, hdlt, rfl⟩ := hd c (List.mem_cons_self c rest)
    obtain ⟨_, hplus, hminus, hund, _, _⟩ := digitChar_props hdlt
    have hcdig := digitChar_isDigit hdlt
    have hrestdig : ∀ x ∈ rest, x.isDigit = true := by
      intro x hx
      obtain ⟨e, helt, rfl⟩ := hd x (List.mem_cons_of_mem _ hx)
      exact digitChar_isDigit helt
    have hvalid := pyIntValid_digits hcdig hrestdig
    have hfilter : (digitChar d :: rest).filter (fun x => !(x == '_')) =
        digitChar d :: rest := by
      rw [List.filter_eq_self]
      intro a ha
      rcases List.mem_cons.mp ha with rfl | ha2
      · simp [hund]
      · obtain ⟨e, helt, rfl⟩ := hd a (List.mem_cons_of_mem _ ha2)
        simp [(digitChar_props helt).2.2.2.1]
    simp only [pyInt, hstrip, hplus, hminus, Bool.false_eq_true, if_false, hvalid, if_true,
      hfilter]

/-- `pyInt` recovers `n` from the decimal rendering `natStr n`. -/
theorem pyInt_natStr (n : Nat) : pyInt (natStr n) = some (n : Int) := by
  by_cases h0 : n = 0
  · subst h0; rfl
  · unfold natStr
    rw [if_neg h0]
    rw [pyInt_digits _ (natStrAux_ne_nil h0 h0) (natStrAux_chars n n)]
    rw [natStrAux_val n n le_rfl]

theorem natStr_chars {n : Nat} {c : Char} (hc : c ∈ natStr n) :
    ∃ d, d < 10 ∧ c = digitChar d := by
  unfold natStr at hc
  by_cases h0 : n = 0
  · subst h0
    simp at hc
    exact ⟨0, by omega, hc⟩
  · rw [if_neg h0] at hc
    exact natStrAux_chars n n c hc

end PyIntLemmas

/-! ## C8: provisioning shared-secret check -/

theorem pyReplaceAux_of_not_contains {pat rep l : List Char}
    (h : containsSub pat l = false) :
    ∀ fuel, pyReplaceAux pat rep fuel l = l := by
  induction l with
  | nil => intro fuel; cases fuel <;> rfl
  | cons c rest ih =>
    intro fuel
    simp only [containsSub, Bool.or_eq_false_iff] at h
    cases fuel with
    | zero => rfl
    | succ f =>
      simp only [pyReplaceAux, h.1, Bool.false_eq_true, and_false, if_false]
      rw [ih h.2]

/-- Replacing a non-empty pattern in `pat ++ b` when the pattern does not occur
in `b` yields `rep ++ b`. -/
theorem pyReplace_pat_append {pat rep b : List Char} (hpat : pat ≠ [])
    (hnb : containsSub pat b = false) :
    pyReplace pat rep (pat ++ b) = rep ++ b := by
  obtain ⟨c0, pt, rfl⟩ : ∃ c0 pt, pat = c0 :: pt := by
    cases pat with
    | nil => exact absurd rfl hpat
    | cons x xs => exact ⟨x, xs, rfl⟩
  unfold pyReplace
  have hlen : ((c0 :: pt) ++ b).length = (pt.length + b.length) + 1 := by
    simp only [List.length_append, List.length_cons]
    omega
  rw [hlen, pyReplaceAux_pat_head, pyReplaceAux_of_not_contains hnb]

theorem pyReplace_of_not_contains {pat rep l : List Char}
    (h : containsSub pat l = false) : pyReplace pat rep l = l :=
  pyReplaceAux_of_not_contains h _

theorem eq_append_drop_of_isPrefixOf :
    ∀ (p a : List Char), p.isPrefixOf a = true → a = p ++ a.drop p.length := by
  intro p
  induction p with
  | nil => intro a _; simp
  | cons c pt ih =>
    intro a h
    cases a with
    | nil => simp [List.isPrefixOf] at h
    | cons x xs =>
      simp only [List.isPrefixOf, Bool.and_eq_true, beq_iff_eq] at h
      obtain ⟨rfl, h2⟩ := h
      rw [List.length_cons, List.drop_succ_cons, List.cons_append]
      exact congrArg (c :: ·) (ih xs h2)

/-- The constant `"Bearer "` used by the provisioning auth check. -/
def bearerPat : List Char := "Bearer ".toList

/-- src/mautrix_max/web/provisioning.py, `ProvisioningAPI._check_auth`
(lines 51-61): `token = auth.replace("Bearer ", "").strip()`; the request is
authorized (no 401 response) iff `token == self.shared_secret`. -/
def check_auth_ok (shared_secret auth : List Char) : Bool :=
  pyStrip (pyReplace bearerPat [] auth) == shared_secret

/-- Modelled from the spec words, for comparison with `check_auth_ok` (claim
C8): authorization succeeds iff the header with an optional single leading
`"Bearer "` removed equals the shared secret. -/
def spec_auth_ok (shared_secret auth : List Char) : Bool :=
  (if bearerPat.isPrefixOf auth then auth.drop bearerPat.length else auth) == shared_secret

/-- C8 counterexample: with shared secret `"s"`, the header
`"Bearer Bearer s"` is accepted by the code (the claim's rule rejects it: one
leading `"Bearer "` removed leaves `"Bearer s" ≠ "s"`), so acceptance is not
equivalent to stripping one optional leading prefix. -/
theorem check_auth_c8_counterexample :
    check_auth_ok "s".toList "Bearer Bearer s".toList = true ∧
      spec_auth_ok "s".toList "Bearer Bearer s".toList = false := by
  constructor
  · decide
  · decide

/-- C8 (amended): the code authorizes a header iff the header with **every**
occurrence of `"Bearer "` removed and surrounding whitespace stripped equals
the secret; in particular, whenever the secret itself contains no
`"Bearer "` occurrence and no surrounding whitespace, every header accepted
by the spec's one-leading-prefix rule is accepted by the code — but the code
also accepts headers with repeated `"Bearer "` prefixes, interior
`"Bearer "` occurrences, or surrounding whitespace. -/
theorem check_auth_c8_amended (shared_secret auth : List Char)
    (hB : containsSub bearerPat shared_secret = false)
    (hw : pyStrip shared_secret = shared_secret)
    (hspec : spec_auth_ok shared_secret auth = true) :
    check_auth_ok shared_secret auth = true := by
  unfold spec_auth_ok at hspec
  unfold check_auth_ok
  by_cases hp : bearerPat.isPrefixOf auth = true
  · rw [if_pos hp, beq_iff_eq] at hspec
    have hdecomp := eq_append_drop_of_isPrefixOf bearerPat auth hp
    rw [hspec] at hdecomp
    rw [hdecomp, pyReplace_pat_append (by decide) hB, List.nil_append, hw]
    exact beq_self_eq_true shared_secret
  · rw [if_neg hp, beq_iff_eq] at hspec
    rw [hspec, pyReplace_of_not_contains hB, hw]
    exact beq_self_eq_true shared_secret

/-- Witness for C8 (amended) at the concrete secret `"s"` and header
`"Bearer s"`. -/
theorem check_auth_c8_amended_witness :
    check_auth_ok "s".toList "Bearer s".toList = true :=
  check_auth_c8_amended "s".toList "Bearer s".toList (by decide) (by decide) (by decide)

/-! ## C10: puppet ghost-identity round trip -/

/-- First part of a split around an explicit pattern occurrence, with the
pattern head absent from the part before it (the tail may contain further
occurrences). -/
theorem pySplit_head_append {c0 : Char} {pt a b : List Char} (ha : c0 ∉ a) :
    (pySplit (c0 :: pt) (a ++ ((c0 :: pt) ++ b))).headD [] = a := by
  unfold pySplit
  rw [pySplitAux_append ha _ (by simp)]
  have h2 : (a ++ ((c0 :: pt) ++ b)).length - a.length = (pt.length + b.length) + 1 := by
    simp only [List.length_append, List.length_cons]
    omega
  rw [h2, pySplitAux_pat_head]
  simp

theorem isSuffixOf_append_self (l t : List Char) : (l.isSuffixOf (t ++ l)) = true := by
  unfold List.isSuffixOf
  rw [List.reverse_append]
  exact isPrefixOf_append_self _ _

/-- The `"{userid}"` placeholder of `bridge.username_template`. -/
def useridPat : List Char := "\x7buserid\x7d".toList

/-- src/mautrix_max/puppet.py, `Puppet.mxid` (lines 58-62):
`localpart = template.format(userid=self.max_user_id)` followed by
`f"@{localpart}:{domain}"`.  For templates whose braces all belong to
`{userid}` fields, `str.format` is exactly the replacement of every
occurrence of the placeholder by the decimal rendering of the id. -/
def puppet_mxid (template domain : List Char) (max_user_id : Nat) : List Char :=
  '@' :: (pyReplace useridPat (natStr max_user_id) template ++ ':' :: domain)

/-- src/mautrix_max/puppet.py, `Puppet.get_by_mxid` (lines 100-116): parse the
template around `"{userid}"`, take the localpart (before the first `:`, minus
the leading `@`), strip the template parts, and parse the rest as an integer.
The function returns the recovered max user id; `get_by_max_user_id(uid,
create=True)` always yields a puppet whose `max_user_id` equals `uid`. -/
def get_by_mxid_user_id (template mxid : List Char) : Option Int :=
  let parts := pySplit useridPat template
  let pre := parts.headD []
  let suf := if containsSub useridPat template then parts.getD 1 [] else []
  let localpart := ((pySplit [':'] mxid).headD []).drop 1
  if pre.isPrefixOf localpart then
    let s1 := localpart.drop pre.length
    let s2 := if suf ≠ [] ∧ suf.isSuffixOf s1 then s1.take (s1.length - suf.length) else s1
    pyInt s2
  else
    none

/-- C10: ghost-identity round trip.  For a username template written around a
single `{userid}` placeholder whose fixed parts contain no digits (and, for
the template and the produced Matrix id to be well formed, no brace and no
colon), `Puppet.get_by_mxid` applied to the Matrix user id produced by
`Puppet.mxid` for max user id `n` recovers exactly `n`. -/
theorem puppet_get_by_mxid_roundtrip
    (pre suf domain : List Char) (n : Nat)
    (hpreD : ∀ c ∈ pre, c.isDigit = false)
    (hsufD : ∀ c ∈ suf, c.isDigit = false)
    (hpreB : '\x7b' ∉ pre) (hsufB : '\x7b' ∉ suf)
    (hpreC : ':' ∉ pre) (hsufC : ':' ∉ suf) :
    get_by_mxid_user_id (pre ++ (useridPat ++ suf))
      (puppet_mxid (pre ++ (useridPat ++ suf)) domain n) = some (n : Int) := by
  have hup : useridPat = '\x7b' :: "userid\x7d".toList := rfl
  have hdchars : ∀ c ∈ natStr n, ∃ d, d < 10 ∧ c = digitChar d := fun _ hc => natStr_chars hc
  have hdB : '\x7b' ∉ natStr n := by
    intro hm
    obtain ⟨d, hd, he⟩ := hdchars _ hm
    exact (digitChar_props hd).2.2.2.2.2 he.symm
  have hdC : ':' ∉ natStr n := by
    intro hm
    obtain ⟨d, hd, he⟩ := hdchars _ hm
    exact (digitChar_props hd).2.2.2.2.1 he.symm
  have hrepl : pyReplace useridPat (natStr n) (pre ++ (useridPat ++ suf)) =
      pre ++ (natStr n ++ suf) := by
    rw [hup]
    exact pyReplace_append_pat hpreB hsufB
  have hsplit : pySplit useridPat (pre ++ (useridPat ++ suf)) = [pre, suf] := by
    rw [hup]
    exact pySplit_append_pat hpreB hsufB
  have hcontains : containsSub useridPat (pre ++ (useridPat ++ suf)) = true := by
    rw [hup]
    exact containsSub_append_pat pre
  have hmxid : puppet_mxid (pre ++ (useridPat ++ suf)) domain n =
      ('@' :: (pre ++ (natStr n ++ suf))) ++ ((':' :: []) ++ domain) := by
    unfold puppet_mxid
    rw [hrepl]
    simp
  have hcolonAbsent : ':' ∉ ('@' :: (pre ++ (natStr n ++ suf))) := by
    intro hm
    rcases List.mem_cons.mp hm with he | hm2
    · exact absurd he.symm (by decide)
    · rcases List.mem_append.mp hm2 with h1 | h12
      · exact hpreC h1
      · rcases List.mem_append.mp h12 with h2 | h3
        · exact hdC h2
        · exact hsufC h3
  have hhead : (pySplit [':']
      (puppet_mxid (pre ++ (useridPat ++ suf)) domain n)).headD [] =
      '@' :: (pre ++ (natStr n ++ suf)) := by
    rw [hmxid]
    exact pySplit_head_append hcolonAbsent
  have hlocal : ((pySplit [':']
      (puppet_mxid (pre ++ (useridPat ++ suf)) domain n)).headD []).drop 1 =
      pre ++ (natStr n ++ suf) := by
    rw [hhead]
    rfl
  have hpfx : (pre.isPrefixOf (pre ++ (natStr n ++ suf))) = true :=
    isPrefixOf_append_self _ _
  have hdrop : (pre ++ (natStr n ++ suf)).drop pre.length = natStr n ++ suf :=
    List.drop_left _ _
  unfold get_by_mxid_user_id
  simp only [hcontains, if_true, hsplit, List.headD_cons, List.getD, List.get?_cons_succ,
    List.get?_cons_zero, Option.getD_some, hlocal, hpfx, if_true, hdrop]
  cases hs : suf with
  | nil =>
    simp only [ne_eq, not_true_eq_false, false_and, if_false, List.append_nil]
    exact pyInt_natStr n
  | cons x xs =>
    have hsfx : ((x :: xs).isSuffixOf (natStr n ++ (x :: xs))) = true :=
      isSuffixOf_append_self _ _
    have hlen : (natStr n ++ (x :: xs)).length - (x :: xs).length = (natStr n).length := by
      simp only [List.length_append]
      omega
    have htake : (natStr n ++ (x :: xs)).take ((natStr n).length) = natStr n :=
      List.take_left _ _
    simp only [ne_eq, List.cons_ne_nil, not_false_iff, true_and, hsfx, if_true, hlen, htake]
    exact pyInt_natStr n

/-- Witness for C10 at the template `"max_{userid}"` (written around the
placeholder), domain `example.com`, and max user id `12345`. -/
theorem puppet_get_by_mxid_roundtrip_witness :
    get_by_mxid_user_id ("max_".toList ++ (useridPat ++ []))
      (puppet_mxid ("max_".toList ++ (useridPat ++ [])) "example.com".toList 12345) =
      some (12345 : Int) :=
  puppet_get_by_mxid_roundtrip "max_".toList [] "example.com".toList 12345
    (by decide) (by decide) (by decide) (by decide) (by decide) (by decide)

/-! ## C5: outbound WebSocket seq numbers (user client) -/

/-- A frame written to the outbound WebSocket by
`UserMaxClient._send_raw` (src/mautrix_max/max/user_client.py, lines 186-208):
`{ver: 11, cmd: C, seq: S, opcode: O}` (the payload is irrelevant to the seq
claim).  `fromCounter` records how the seq was chosen: `true` when it was
freshly drawn from `_next_seq` (lines 175-177) — either inside `_send_raw` via
`seq=None` or just before the send in `_send_and_wait` — and `false` when an
explicit server seq was passed to be echoed. -/
structure OutFrame where
  ver : Nat
  cmd : Nat
  seq : Nat
  opcode : Nat
  fromCounter : Bool
deriving DecidableEq, Repr

/-- The client state relevant to seq allocation: the `_seq` counter (initially
0) and the ordered trace of frames written so far. -/
structure SeqState where
  seq : Nat
  trace : List OutFrame
deriving DecidableEq, Repr

/-- The outbound send operations of a `UserMaxClient` session:
* `request opcode` — a send with a freshly allocated seq: `_send_and_wait`
  (lines 220-239), the keepalive heartbeat and `_send` callers such as
  `add_reaction`/`mark_as_read`;
* `echoResponse opcode serverSeq` — `_send_raw(Cmd.RESPONSE, …, seq=seq)`
  reusing the server's seq: the heartbeat echo and the `INCOMING_MESSAGE` ack
  in `_handle_ws_message` (lines 519-543). -/
inductive SendOp
  | request (opcode : Nat)
  | echoResponse (opcode serverSeq : Nat)
deriving DecidableEq, Repr

/-- `_send_raw`: allocate the next seq when none is given, then write the
frame with `ver: 11`. -/
def sendRaw (st : SeqState) (cmd opcode : Nat) (seq : Option Nat) : SeqState :=
  match seq with
  | none =>
    { seq := st.seq + 1,
      trace := st.trace ++ [⟨11, cmd, st.seq + 1, opcode, true⟩] }
  | some s =>
    { st with trace := st.trace ++ [⟨11, cmd, s, opcode, false⟩] }

def sendStep (st : SeqState) : SendOp → SeqState
  | .request opcode => sendRaw st 0 opcode none
  | .echoResponse opcode serverSeq => sendRaw st 1 opcode (some serverSeq)

def sendRun (st : SeqState) : List SendOp → SeqState
  | [] => st
  | op :: ops => sendRun (sendStep st op) ops

def initSeqState : SeqState := { seq := 0, trace := [] }

/-- C5 counterexample: the claim that **every** outbound frame (requests,
responses and acks alike) carries a seq strictly greater than every earlier
one is false.  Concretely: the client sends `INIT_SESSION` (allocated seq 1),
then echoes a server heartbeat that arrived with server seq 1; the echoed
response is written with seq 1 again, so the outbound seq sequence is
`[1, 1]`, which is not strictly increasing. -/
theorem seq_outbound_c5_counterexample :
    ((sendRun initSeqState
        [SendOp.request 6, SendOp.echoResponse 1 1]).trace.map OutFrame.seq) = [1, 1] ∧
      ¬ List.Pairwise (· < ·)
        ((sendRun initSeqState
          [SendOp.request 6, SendOp.echoResponse 1 1]).trace.map OutFrame.seq) := by
  constructor
  · rfl
  · decide

theorem sendRun_pairwise_invariant (ops : List SendOp) :
    ∀ st : SeqState,
      List.Pairwise (· < ·) ((st.trace.filter OutFrame.fromCounter).map OutFrame.seq) →
      (∀ f ∈ st.trace, f.fromCounter = true → f.seq ≤ st.seq) →
      List.Pairwise (· < ·)
        (((sendRun st ops).trace.filter OutFrame.fromCounter).map OutFrame.seq) := by
  induction ops with
  | nil => intro st h1 _; exact h1
  | cons op ops ih =>
    intro st h1 h2
    cases op with
    | request opcode =>
      refine ih _ ?_ ?_
      · simp only [sendStep, sendRaw, List.filter_append, List.map_append]
        rw [List.pairwise_append]
        refine ⟨h1, by simp, ?_⟩
        intro x hx y hy
        simp only [List.mem_map, List.mem_filter] at hx
        obtain ⟨f, ⟨hf, hflag⟩, rfl⟩ := hx
        have hle := h2 f hf hflag
        simp at hy
        omega
      · intro f hf hflag
        simp only [sendStep, sendRaw, List.mem_append, List.mem_singleton] at hf
        rcases hf with hf | rfl
        · have := h2 f hf hflag
          simp only [sendStep, sendRaw]
          omega
        · simp [sendStep, sendRaw]
    | echoResponse opcode serverSeq =>
      refine ih _ ?_ ?_
      · simp only [sendStep, sendRaw, List.filter_append, List.map_append]
        have hnil : List.filter OutFrame.fromCounter
            [(⟨11, 1, serverSeq, opcode, false⟩ : OutFrame)] = [] := rfl
        rw [hnil]
        simpa using h1
      · intro f hf hflag
        simp only [sendStep, sendRaw, List.mem_append, List.mem_singleton] at hf
        rcases hf with hf | rfl
        · exact h2 f hf hflag
        · simp at hflag
      
/-- C5 (amended): within a session, the seqs of the frames whose seq was
freshly allocated from the `_seq` counter (requests from `_send_and_wait`,
keepalive heartbeats, `_send` calls) are strictly monotone in write order;
response frames that echo a server seq (heartbeat echo, `INCOMING_MESSAGE`
ack) reuse the server's seq and are excluded. -/
theorem seq_allocated_monotone_c5_amended (ops : List SendOp) :
    List.Pairwise (· < ·)
      (((sendRun initSeqState ops).trace.filter OutFrame.fromCounter).map OutFrame.seq) := by
  refine sendRun_pairwise_invariant ops initSeqState ?_ ?_
  · exact List.Pairwise.nil
  · intro f hf
    simp [initSeqState] at hf

/-! ## C4: bot client 401 handling vs the long-poll loop -/

/-- Error values raised by the bot client (src/mautrix_max/max/errors.py):
`AuthError`, `NotFoundError`, `RateLimitError` and the generic `MaxAPIError`.
All of them derive from `Exception` (AuthError from MaxAPIError). -/
inductive MaxErr
  | authError (message : String)
  | notFoundError (resource : String)
  | rateLimitError (retry_after : Nat)
  | apiError (code message : String) (status : Nat)
deriving DecidableEq, Repr

/-- An HTTP response as seen by `BotMaxClient._request`: the status, the
`Retry-After` header already parsed to an integer (the code does
`int(resp.headers.get("Retry-After", "5"))`, so absence means 5), and the
decoded JSON body's `code` and `message` entries (the `str(body)` fallback
for `message` is abstracted to the empty string). -/
structure HttpResponse where
  status : Nat
  retryAfterHeader : Option Nat
  bodyCode : Option String
  bodyMessage : Option String
deriving DecidableEq, Repr

/-- src/mautrix_max/max/bot_client.py, `BotMaxClient._request` (lines 61-88):
401 → `AuthError("Invalid bot token")`; 404 → `NotFoundError(path)`;
429 → `RateLimitError(retry_after)`; any other status ≥ 400 → `MaxAPIError`
with the body's code and message; otherwise the decoded body is returned. -/
def bot_request (path : String) (resp : HttpResponse) : Except MaxErr HttpResponse :=
  if resp.status = 401 then Except.error (MaxErr.authError "Invalid bot token")
  else if resp.status = 404 then Except.error (MaxErr.notFoundError path)
  else if resp.status = 429 then
    Except.error (MaxErr.rateLimitError (resp.retryAfterHeader.getD 5))
  else if resp.status ≥ 400 then
    Except.error (MaxErr.apiError (resp.bodyCode.getD "unknown")
      (resp.bodyMessage.getD "") resp.status)
  else Except.ok resp

/-- The observable outcome of one iteration of the long-poll loop. -/
inductive PollAction
  | breakLoop
  | processUpdates
  | sleepRetry (seconds : Nat)
deriving DecidableEq, Repr

/-- What the awaited `_request("GET", "/updates")` of an iteration did:
cancelled while suspended, or completed with an HTTP response. -/
inductive PollRequestEvent
  | cancelled
  | completed (resp : HttpResponse)
deriving DecidableEq, Repr

/-- src/mautrix_max/max/bot_client.py, `BotMaxClient._poll_loop` (lines
123-144), the handling of one iteration: `CancelledError` breaks out;
`RateLimitError` sleeps `retry_after` and retries; **every other exception —
`AuthError` included — is caught by the generic `except Exception` handler**,
which logs and sleeps 5 seconds before the next iteration; a successful
response has its updates processed. -/
def poll_loop_iteration (ev : PollRequestEvent) : PollAction :=
  match ev with
  | PollRequestEvent.cancelled => PollAction.breakLoop
  | PollRequestEvent.completed resp =>
    match bot_request "/updates" resp with
    | Except.ok _ => PollAction.processUpdates
    | Except.error (MaxErr.rateLimitError t) => PollAction.sleepRetry t
    | Except.error _ => PollAction.sleepRetry 5

/-- C4 counterexample: a 401 received inside the long-poll loop **is** followed
by a sleep-and-retry iteration — the `AuthError` raised by `_request` is
swallowed by the loop's generic `except Exception` handler, which sleeps 5
seconds and continues, contradicting the claim that it surfaces with no
retry. -/
theorem bot401_poll_c4_counterexample :
    bot_request "/updates" ⟨401, none, none, none⟩ =
        Except.error (MaxErr.authError "Invalid bot token") ∧
      poll_loop_iteration (PollRequestEvent.completed ⟨401, none, none, none⟩) =
        PollAction.sleepRetry 5 :=
  ⟨rfl, rfl⟩

/-- C4 (amended): a 401 response makes `_request` raise `AuthError`
immediately — at the request layer there is no retry and the error surfaces
to the caller — but inside `_poll_loop` that `AuthError` is caught by the
generic handler, so the 401 **is** followed by a 5-second sleep and another
iteration (the loop deliberately never terminates on errors). -/
theorem bot401_c4_amended (resp : HttpResponse) (h : resp.status = 401) :
    (∀ path, bot_request path resp = Except.error (MaxErr.authError "Invalid bot token")) ∧
      poll_loop_iteration (PollRequestEvent.completed resp) = PollAction.sleepRetry 5 := by
  have h1 : ∀ path, bot_request path resp =
      Except.error (MaxErr.authError "Invalid bot token") := by
    intro path
    unfold bot_request
    simp [h]
  refine ⟨h1, ?_⟩
  simp only [poll_loop_iteration, h1 "/updates"]

/-- Witness for C4 (amended) at a concrete 401 response. -/
theorem bot401_c4_amended_witness :
    bot_request "/updates" ⟨401, none, none, none⟩ =
        Except.error (MaxErr.authError "Invalid bot token") ∧
      poll_loop_iteration (PollRequestEvent.completed ⟨401, none, none, none⟩) =
        PollAction.sleepRetry 5 :=
  ⟨(bot401_c4_amended ⟨401, none, none, none⟩ rfl).1 "/updates",
   (bot401_c4_amended ⟨401, none, none, none⟩ rfl).2⟩

/-! ## The message correlation table (src/mautrix_max/db/message.py) -/

/-- A row of the `message` table: primary key `(max_chat_id, max_msg_id)`,
the Matrix event id, room id and optional timestamp. -/
structure DBMessage where
  max_chat_id : Int
  max_msg_id : String
  mxid : String
  mx_room : String
  timestamp : Option Int
deriving DecidableEq, Repr

/-- `Message.get_by_max_msg_id` (lines 44-49): the row whose chat and message
id match. -/
def dbGetByMaxMsgId (db : List DBMessage) (chat_id : Int) (msg_id : String) :
    Option DBMessage :=
  db.find? (fun r => r.max_chat_id == chat_id && r.max_msg_id == msg_id)

/-- `Message.get_by_mxid` (lines 52-56): the row whose Matrix event id
matches. -/
def dbGetByMxid (db : List DBMessage) (mxid : String) : Option DBMessage :=
  db.find? (fun r => r.mxid == mxid)

/-- Python truthiness of an optional string (`None` and `""` are falsy). -/
def optStrTruthy : Option String → Bool
  | some s => !(s == "")
  | none => false

/-- Python `a or b` for optional strings. -/
def pyOrOpt (a b : Option String) : Option String :=
  match a with
  | some s => if s = "" then b else some s
  | none => b

/-- Python `a or b` where `b` is a plain string. -/
def pyOrStrD (a : Option String) (b : String) : String :=
  match a with
  | some s => if s = "" then b else s
  | none => b

/-- Python `str(x)` for an optional string (`str(None) = "None"`). -/
def pyStr : Option String → String
  | some s => s
  | none => "None"

/-! ## C6: echo dedup in the Max event dispatcher -/

/-- src/mautrix_max/max/types.py, `EventType` (lines 34-44). -/
inductive MaxEventType
  | message_created
  | message_edited
  | message_removed
  | message_callback
  | bot_started
  | bot_added
  | bot_removed
  | user_added
  | user_removed
  | chat_title_changed
deriving DecidableEq, Repr

/-- src/mautrix_max/max/types.py, `MaxUser` (the fields the dispatcher
uses). -/
structure EmbMaxUser where
  user_id : Int
  name : String
deriving DecidableEq, Repr

/-- src/mautrix_max/max/types.py, `MaxMessage`, reduced to the accessors the
dispatcher and portal use: `message_id` (the `mid` field), the `text`
property (`body.get("text")`), the optional `sender` and the `reply_to`
property (`link.mid` when `link.type == "reply"`, else `None`). -/
structure EmbMaxMessage where
  message_id : String
  text : Option String
  sender : Option EmbMaxUser
  reply_to : Option String
deriving DecidableEq, Repr

/-- src/mautrix_max/max/types.py, `MaxEvent` (the fields `_on_max_event`
reads). -/
structure EmbMaxEvent where
  type : MaxEventType
  chat_id : Int
  message : Option EmbMaxMessage
  user : Option EmbMaxUser
  message_id : Option String
deriving DecidableEq, Repr

/-- The portal/puppet calls `User._on_max_event` can issue. -/
inductive DispatchAction
  | updatePuppet (user_id : Int)
  | handleMaxMessage (chat_id : Int) (msg : EmbMaxMessage)
  | handleMaxEdit (chat_id : Int) (msg_id : String) (new_text : String)
  | handleMaxDelete (chat_id : Int) (msg_id : String)
deriving DecidableEq, Repr

/-- The non-`bot_started` part of `User._on_max_event`
(src/mautrix_max/user.py, lines 428-451).  `Portal.get_by_max_chat_id` is
called with `create=True` and therefore always yields a portal whose
`max_chat_id` equals `event.chat_id`.  For `message_created` the dispatcher
first consults the correlation table and silently drops the event when a row
for `(chat, mid)` already exists; for edits and deletions the message id is
taken from the top level or from the nested message object. -/
def on_max_event_rest (db : List DBMessage) (event : EmbMaxEvent) :
    List DispatchAction :=
  match event.type with
  | MaxEventType.message_created =>
    match event.message with
    | some msg =>
      if msg.message_id ≠ "" then
        match dbGetByMaxMsgId db event.chat_id msg.message_id with
        | some _ => []
        | none => [DispatchAction.handleMaxMessage event.chat_id msg]
      else [DispatchAction.handleMaxMessage event.chat_id msg]
    | none => []
  | MaxEventType.message_edited =>
    let msg_id := pyOrOpt event.message_id
      (match event.message with
       | some m => some m.message_id
       | none => none)
    let new_text := pyOrStrD
      (match event.message with
       | some m => m.text
       | none => none) ""
    if optStrTruthy msg_id then
      [DispatchAction.handleMaxEdit event.chat_id (msg_id.getD "") new_text]
    else []
  | MaxEventType.message_removed =>
    let msg_id := pyOrOpt event.message_id
      (match event.message with
       | some m => some m.message_id
       | none => none)
    if optStrTruthy msg_id then
      [DispatchAction.handleMaxDelete event.chat_id (msg_id.getD "")]
    else []
  | _ => []

/-- src/mautrix_max/user.py, `User._on_max_event` (lines 414-451): the
`bot_started` guard (`event.type == BOT_STARTED and event.user`) updates the
sender's puppet and returns; everything else is routed by event type. -/
def on_max_event (db : List DBMessage) (event : EmbMaxEvent) :
    List DispatchAction :=
  if event.type = MaxEventType.bot_started then
    match event.user with
    | some u => [DispatchAction.updatePuppet u.user_id]
    | none => on_max_event_rest db event
  else on_max_event_rest db event

/-- C6: if a correlation row exists for `(chat, mid)` — with `mid` non-empty,
as is every key the code ever inserts — then dispatching a `message_created`
event carrying `mid` produces no action at all: the echo is dropped before
`Portal.handle_max_message` runs, so no Matrix event is produced. -/
theorem dedup_drop_c6 (db : List DBMessage) (chat : Int) (msg : EmbMaxMessage)
    (user : Option EmbMaxUser) (mid_top : Option String)
    (hmid : msg.message_id ≠ "")
    (hrow : (dbGetByMaxMsgId db chat msg.message_id).isSome = true) :
    on_max_event db ⟨MaxEventType.message_created, chat, some msg, user, mid_top⟩ = [] := by
  obtain ⟨row, hrow2⟩ := Option.isSome_iff_exists.mp hrow
  simp [on_max_event, on_max_event_rest, hmid, hrow2]

/-- Witness for C6: chat 7 already maps message id `"a"` to a Matrix event;
the incoming `message_created` echo for `"a"` is dropped. -/
theorem dedup_drop_c6_witness :
    on_max_event [⟨7, "a", "$e1", "!room:x", none⟩]
      ⟨MaxEventType.message_created, 7, some ⟨"a", some "hi", none, none⟩,
        none, none⟩ = [] :=
  dedup_drop_c6 _ _ _ _ _ (by decide) (by decide)

/-! ## C7: Matrix `m.replace` edits -/

/-- The slice of `m.relates_to` that `Portal.handle_matrix_message` reads:
`rel_type` (as its string value), the related `event_id`, and the
`in_reply_to` target event id. -/
structure EmbRelatesTo where
  rel_type : Option String
  event_id : Option String
  in_reply_to : Option String
deriving DecidableEq, Repr

/-- `content["m.new_content"]` — only its `body` is read. -/
structure EmbNewContent where
  body : Option String
deriving DecidableEq, Repr

/-- The slice of a Matrix text message content that
`Portal.handle_matrix_message` reads. -/
structure EmbMessageContent where
  body : Option String
  relates_to : Option EmbRelatesTo
  new_content : Option EmbNewContent
deriving DecidableEq, Repr

/-- The client/database calls `Portal.handle_matrix_message` can issue, in
program order. -/
inductive PortalMatrixAction
  | editMessage (message_id : String) (text : String)
  | sendMessage (chat_id : Int) (text : String) (reply_to : Option String)
  | insertMessageRow (row : DBMessage)
deriving DecidableEq, Repr

/-- src/mautrix_max/portal.py, `Portal.handle_matrix_message` (lines
210-251).  The sender's client is abstracted to `has_client` (the
`if not sender.max_client` guard) plus `sent_mid`, the server-assigned id the
client's `send_message` returns (used only on the send path).  The result is
the ordered list of calls plus the message table afterwards. -/
def handle_matrix_message (db : List DBMessage) (has_client : Bool)
    (max_chat_id : Int) (portal_mxid : Option String) (event_id : String)
    (content : EmbMessageContent) (sent_mid : String) :
    List PortalMatrixAction × List DBMessage :=
  if !has_client then ([], db)
  else
    let text := pyOrStrD content.body ""
    let reply_to : Option String :=
      match content.relates_to with
      | some r =>
        match r.in_reply_to with
        | some evt => (dbGetByMxid db evt).map (fun m => m.max_msg_id)
        | none => none
      | none => none
    let edit_row : Option DBMessage :=
      match content.relates_to with
      | some r =>
        if r.rel_type = some "m.replace" then dbGetByMxid db (pyStr r.event_id)
        else none
      | none => none
    match edit_row with
    | some row =>
      let new_text0 := pyOrStrD content.body text
      let new_text :=
        match content.new_content with
        | some nc => pyOrStrD nc.body new_text0
        | none => new_text0
      ([PortalMatrixAction.editMessage row.max_msg_id new_text], db)
    | none =>
      if sent_mid ≠ "" then
        ([PortalMatrixAction.sendMessage max_chat_id text reply_to,
          PortalMatrixAction.insertMessageRow
            ⟨max_chat_id, sent_mid, event_id, pyStr portal_mxid, none⟩],
         db ++ [⟨max_chat_id, sent_mid, event_id, pyStr portal_mxid, none⟩])
      else ([PortalMatrixAction.sendMessage max_chat_id text reply_to], db)

/-- C7: a Matrix message carrying an `m.replace` relation whose target event
id has a correlation row mapping it to max message id `M` makes the handler
call `edit_message(M, new_content.body)` — no new send — and leaves the
message table unchanged. -/
theorem matrix_edit_c7 (db : List DBMessage) (max_chat_id : Int)
    (portal_mxid : Option String) (event_id target : String)
    (row : DBMessage) (body : Option String) (nb sent_mid : String)
    (irt : Option String)
    (hrow : dbGetByMxid db target = some row)
    (hnb : nb ≠ "")
    (hirt : irt = none) :
    handle_matrix_message db true max_chat_id portal_mxid event_id
        ⟨body, some ⟨some "m.replace", some target, irt⟩, some ⟨some nb⟩⟩ sent_mid =
      ([PortalMatrixAction.editMessage row.max_msg_id nb], db) := by
  subst hirt
  simp [handle_matrix_message, pyStr, hrow, pyOrStrD, hnb]

/-- Witness for C7: the row `(7, "a", $e1)` is present; the edit event `$e2`
replacing `$e1` with body `"fixed"` yields exactly `edit_message("a",
"fixed")` and the table is untouched. -/
theorem matrix_edit_c7_witness :
    handle_matrix_message [⟨7, "a", "$e1", "!room:x", none⟩] true 7
        (some "!room:x") "$e2"
        ⟨some "* fixed", some ⟨some "m.replace", some "$e1", none⟩,
          some ⟨some "fixed"⟩⟩ "" =
      ([PortalMatrixAction.editMessage "a" "fixed"],
       [⟨7, "a", "$e1", "!room:x", none⟩]) :=
  matrix_edit_c7 [⟨7, "a", "$e1", "!room:x", none⟩] 7 (some "!room:x") "$e2" "$e1"
    ⟨7, "a", "$e1", "!room:x", none⟩ (some "* fixed") "fixed" "" none
    (by decide) (by decide) rfl

/-! ## C9: INCOMING_MESSAGE ack before the handler -/

/-- The id fields `_handle_ws_message` may read from a message dict
(`id`, `messageId`). -/
structure WsIdFields where
  id : Option String
  messageId : Option String
deriving DecidableEq, Repr

/-- A server frame's payload: `payload.get("message", payload)` returns the
nested message dict when present, else the payload itself, so the id fields
exist on both levels. -/
structure WsPayload where
  chatId : Option Int
  top : WsIdFields
  message : Option WsIdFields
deriving DecidableEq, Repr

/-- `raw_msg = payload.get("message", payload)` (line 529). -/
def wsRawMsg (p : WsPayload) : WsIdFields :=
  p.message.getD p.top

/-- The messageId put into the ack:
`raw_msg.get("id", raw_msg.get("messageId"))` (line 535). -/
def wsAckMessageId (p : WsPayload) : Option String :=
  (wsRawMsg p).id <|> (wsRawMsg p).messageId

/-- The payload of the cmd=1 ack for an incoming message:
`{"chatId": payload.get("chatId"), "messageId": …}` (lines 533-536). -/
structure AckPayload where
  chatId : Option Int
  messageId : Option String
deriving DecidableEq, Repr

/-- The observable actions of `_handle_ws_message`, in program order. -/
inductive WsAction
  | sendFrame (cmd seq opcode : Nat) (ack : Option AckPayload)
  | handleIncomingEvent (opcode : Nat)
  | logException
  | resolvePending (seq : Nat)
  | failPending (seq : Nat)
  | logWarning
deriving DecidableEq, Repr

/-- src/mautrix_max/max/user_client.py, `_handle_ws_message` (lines 512-580):
dispatch on `cmd` (0 request, 1 response, 2 ack, 3 error) and, for server
requests, on the opcode (1 HEARTBEAT, 128 INCOMING_MESSAGE, 129-132 other
incoming events).  `handler_throws` abstracts whether
`_handle_incoming_event` (or the user handler inside it) raises — the
surrounding `try/except` only logs.  `pending` is the set of seqs with a
pending future. -/
def handle_ws_message (pending : List Nat) (cmd seq opcode : Nat)
    (payload : WsPayload) (handler_throws : Bool) : List WsAction :=
  if cmd = 0 then
    if opcode = 1 then
      [WsAction.sendFrame 1 seq 1 none]
    else if opcode = 128 then
      [WsAction.sendFrame 1 seq 128 (some ⟨payload.chatId, wsAckMessageId payload⟩),
       WsAction.handleIncomingEvent 128] ++
        (if handler_throws then [WsAction.logException] else [])
    else if opcode = 129 ∨ opcode = 130 ∨ opcode = 131 ∨ opcode = 132 then
      [WsAction.handleIncomingEvent opcode] ++
        (if handler_throws then [WsAction.logException] else [])
    else []
  else if cmd = 1 then
    if pending.contains seq then [WsAction.resolvePending seq] else []
  else if cmd = 3 then
    if pending.contains seq then [WsAction.failPending seq] else [WsAction.logWarning]
  else []

/-- C9: for a server request frame (cmd 0) with opcode INCOMING_MESSAGE
(128), the ack — cmd 1, the server's own seq, payload
`{chatId, messageId}` — is the first action, the handler invocation comes
second, and a handler exception only appends a log entry: the ack has been
sent in every case, before the handler ran. -/
theorem incoming_message_ack_first_c9 (pending : List Nat) (seq : Nat)
    (payload : WsPayload) (handler_throws : Bool) :
    handle_ws_message pending 0 seq 128 payload handler_throws =
      WsAction.sendFrame 1 seq 128 (some ⟨payload.chatId, wsAckMessageId payload⟩) ::
        WsAction.handleIncomingEvent 128 ::
        (if handler_throws then [WsAction.logException] else []) := by
  simp [handle_ws_message]

/-! ## C2: Matrix reactions -/

/-- The Max-client and reaction-table calls the reaction path can issue.  The
row shape follows src/mautrix_max/db/reaction.py, `Reaction.insert` (lines
61-76): `(mxid, max_chat_id, max_msg_id, max_sender_id, reaction)` keyed on
the reaction's Matrix event id. -/
inductive ReactionAction
  | addReaction (chat_id : Int) (message_id : String) (emoji : String)
  | insertReaction (mxid : String) (max_chat_id : Int) (max_msg_id : String)
      (max_sender_id : Int) (reaction : String)
deriving DecidableEq, Repr

/-- Modelled from the spec: `Portal.handle_matrix_reaction` is missing from
src/ — src/mautrix_max/matrix.py line 78 calls it, but portal.py (lines
29-283) does not define it.  Spec §4.6 Reactions: "Matrix reaction → Max
`add_reaction` keyed by `(chat, target max message id, emoji)`; record in
reaction table."  The target's max message id is the correlation row of the
reacted-to Matrix event; the reaction row is keyed on the reaction's own
Matrix event id and carries chat id, target max message id, the sender's max
user id and the emoji. -/
def handle_matrix_reaction (db : List DBMessage) (max_chat_id : Int)
    (sender_max_user_id : Int) (reaction_event_id : String) (emoji : String)
    (target_event_id : String) : List ReactionAction :=
  match dbGetByMxid db target_event_id with
  | some row =>
    [ReactionAction.addReaction max_chat_id row.max_msg_id emoji,
     ReactionAction.insertReaction reaction_event_id max_chat_id row.max_msg_id
       sender_max_user_id emoji]
  | none => []

/-- src/mautrix_max/matrix.py, `MatrixHandler._handle_reaction` (lines
40-80): drop ghost senders; require a portal for the room, a logged-in
sender, and an `m.relates_to` carrying a target event id and a non-empty
key; then delegate to the portal.  `sender_ghost` is
`bridge.is_bridge_ghost(evt.sender)`; `portal_chat_id` is the chat of the
portal found for the room (`none` when the room has no portal); `sender`
carries `(is_logged_in, max_user_id)` of the sender's user record. -/
def matrix_handle_reaction (db : List DBMessage) (sender_ghost : Bool)
    (portal_chat_id : Option Int) (sender : Option (Bool × Int))
    (reaction_event_id : String) (relates_to : Option (Option String × String)) :
    List ReactionAction :=
  if sender_ghost then []
  else
    match portal_chat_id with
    | none => []
    | some chat_id =>
      match sender with
      | none => []
      | some (is_logged_in, max_user_id) =>
        if !is_logged_in then []
        else
          match relates_to with
          | none => []
          | some (target, key) =>
            match target with
            | none => []
            | some tgt =>
              if key = "" then []
              else handle_matrix_reaction db chat_id max_user_id
                reaction_event_id key tgt

/-- C2: an `m.reaction` event in a room with a portal, from a logged-in
non-ghost sender, whose relation carries a target with a correlation row and
a non-empty key, calls `add_reaction(chat, target max message id, emoji)` on
the sender's client and inserts a reaction row keyed on the reaction's
Matrix event id. -/
theorem matrix_reaction_c2 (db : List DBMessage) (chat_id max_user_id : Int)
    (reaction_event_id emoji target : String) (row : DBMessage)
    (hrow : dbGetByMxid db target = some row) (hemoji : emoji ≠ "") :
    matrix_handle_reaction db false (some chat_id) (some (true, max_user_id))
        reaction_event_id (some (some target, emoji)) =
      [ReactionAction.addReaction chat_id row.max_msg_id emoji,
       ReactionAction.insertReaction reaction_event_id chat_id row.max_msg_id
         max_user_id emoji] := by
  simp [matrix_handle_reaction, handle_matrix_reaction, hrow, hemoji]

/-- Witness for C2: chat 7 maps `$e1` to max message `"a"`; Alice's 👍-like
reaction `$r1` on `$e1` issues `add_reaction(7, "a", "x")` and inserts the
row `($r1, 7, "a", 100, "x")`. -/
theorem matrix_reaction_c2_witness :
    matrix_handle_reaction [⟨7, "a", "$e1", "!room:x", none⟩] false (some 7)
        (some (true, 100)) "$r1" (some (some "$e1", "x")) =
      [ReactionAction.addReaction 7 "a" "x",
       ReactionAction.insertReaction "$r1" 7 "a" 100 "x"] :=
  matrix_reaction_c2 [⟨7, "a", "$e1", "!room:x", none⟩] 7 100 "$r1" "x" "$e1"
    ⟨7, "a", "$e1", "!room:x", none⟩ (by decide) (by decide)

/-! ## C1: chat-sync launch after connect -/

/-- The decoded JSON of a `LOGIN_BY_TOKEN` response as far as the chat-sync
launch is concerned: the `chats` list (entries kept abstract — only emptiness
matters to the launch decision; the token, profile and contacts entries play
no role here). -/
structure LoginData where
  chats : List Unit
deriving DecidableEq, Repr

/-- src/mautrix_max/max/user_client.py, `UserMaxClient._login_by_token`
(lines 285-313): the function reads `resp` (token, profile) but has **no
return statement** — it returns `None` whatever the response contained, and
in particular drops the response's `chats` list. -/
def login_by_token_return (resp : LoginData) : Option LoginData := none

/-- src/mautrix_max/max/user_client.py, `UserMaxClient.connect` (lines
257-283): awaits `_login_by_token` and itself returns `None` (annotated
`-> None`, no return statement). -/
def user_client_connect_return (resp : LoginData) : Option LoginData :=
  login_by_token_return resp

/-- src/mautrix_max/max/bot_client.py, `BotMaxClient.connect` (lines 92-104):
returns `None` as well. -/
def bot_client_connect_return : Option LoginData := none

/-- src/mautrix_max/user.py, `User.connect` (lines 115-128):
`login_data = await self.max_client.connect()`, then `raw_chats =
login_data.get("chats", []) if isinstance(login_data, dict) else login_data`,
and `asyncio.create_task(self._sync_chats(…))` runs iff `raw_chats` is
truthy: for a dict, iff its `chats` list is non-empty; for `None`,
never. -/
def sync_task_launched (login_data : Option LoginData) : Bool :=
  match login_data with
  | some d => !d.chats.isEmpty
  | none => false

/-- C1 (code bug): the chat-sync task is never launched.  Both clients'
`connect` return `None`, so `User.connect` never sees the login response's
chat list — even when the server's `LOGIN_BY_TOKEN` response carried a
non-empty one, `_login_by_token` drops it and `sync_task_launched` is
`false`.  `User._sync_chats` (the claimed behaviour: one portal per chat,
room creation for unmaterialized portals) exists but is dead code on this
path. -/
theorem sync_never_launched_c1 (resp : LoginData) (hchats : resp.chats ≠ []) :
    sync_task_launched (user_client_connect_return resp) = false ∧
      sync_task_launched bot_client_connect_return = false :=
  ⟨rfl, rfl⟩

/-- Witness for C1 at a login response carrying one chat. -/
theorem sync_never_launched_c1_witness :
    sync_task_launched (user_client_connect_return ⟨[()]⟩) = false ∧
      sync_task_launched bot_client_connect_return = false :=
  sync_never_launched_c1 ⟨[()]⟩ (by decide)

/-! ## C3: `photo`/`image` attachment aliases in the Max→Matrix converter -/

/-- src/mautrix_max/max/types.py, `AttachmentType` (lines 18-31). -/
inductive AttachmentType
  | photo
  | image
  | file
  | sticker
  | video
  | voice
  | audio
  | contact
  | location
deriving DecidableEq, Repr

/-- `AttachmentType.is_photo` (lines 29-31): `photo` and `image` are declared
aliases (the source comment: "Bot API uses image instead of photo"). -/
def AttachmentType.is_photo : AttachmentType → Bool
  | AttachmentType.photo => true
  | AttachmentType.image => true
  | _ => false

/-- The string `.value` of each enum member. -/
def AttachmentType.value : AttachmentType → String
  | AttachmentType.photo => "photo"
  | AttachmentType.image => "image"
  | AttachmentType.file => "file"
  | AttachmentType.sticker => "sticker"
  | AttachmentType.video => "video"
  | AttachmentType.voice => "voice"
  | AttachmentType.audio => "audio"
  | AttachmentType.contact => "contact"
  | AttachmentType.location => "location"

/-- src/mautrix_max/max/types.py, `MaxAttachment` — the fields the converter
reads.  `photos` is an insertion-ordered dict of size name → photo URL,
modelled as an association list; the latitude/longitude floats are carried
opaquely as their decimal renderings (`none` = Python `None`). -/
structure MaxAttachment where
  type : AttachmentType
  photos : Option (List (String × String))
  url : Option String
  filename : Option String
  mime_type : Option String
  latitude : Option String
  longitude : Option String
deriving DecidableEq, Repr

/-- `MaxAttachment.best_photo_url` (lines 89-100): prefer the sizes
original > large > medium > small, else the first available photo, else the
`url` field; an absent or empty dict falls back to `url`. -/
def best_photo_url (a : MaxAttachment) : Option String :=
  match a.photos with
  | none => a.url
  | some ps =>
    if ps.isEmpty then a.url
    else
      match ps.lookup "original" <|> ps.lookup "large" <|> ps.lookup "medium" <|>
          ps.lookup "small" with
      | some u => some u
      | none => ps.head?.map Prod.snd

/-- The converter's effectful collaborators as pure oracles: `download url`
returns the byte count of the fetched media (`none` models a raised
exception) and `upload url` the `mxc://` URI the upload function returns for
those bytes.  The whole environment being `none` models
`max_client and upload_fn` being falsy. -/
structure MediaEnv where
  download : String → Option Nat
  upload : String → String

/-- A Matrix event content produced by the converter. -/
inductive ConvertedEvent
  | roomImage (body url mimetype : String) (size : Nat)
  | roomFile (body url : String)
  | roomMedia (msgtype body url : String)
  | stickerEvent (body url mimetype : String) (size : Nat)
  | roomText (body : String)
  | roomLocation (body geo_uri : String)
deriving DecidableEq, Repr

/-- src/mautrix_max/formatter/from_max.py,
`MaxMessageConverter._convert_attachment` (lines 63-184): branch on the
attachment type.  Only `AttachmentType.PHOTO` is matched by the photo branch;
a download/upload failure degrades to a bracketed text event for
photo/file/media, to nothing for stickers; `location` renders a `geo:` URI;
every type without a branch — `image` included — falls through to the
"Unsupported attachment type" debug log and converts to nothing. -/
def convert_attachment (env : Option MediaEnv) (a : MaxAttachment) :
    Option ConvertedEvent :=
  if a.type = AttachmentType.photo then
    match best_photo_url a with
    | none => none
    | some url =>
      match env with
      | some e =>
        match e.download url with
        | some size =>
          some (ConvertedEvent.roomImage "photo.jpg" (e.upload url) "image/jpeg" size)
        | none => some (ConvertedEvent.roomText ("[Photo: " ++ url ++ "]"))
      | none => some (ConvertedEvent.roomText ("[Photo: " ++ url ++ "]"))
  else if a.type = AttachmentType.file then
    match a.url with
    | none => none
    | some url =>
      let filename := a.filename.getD "file"
      match env with
      | some e =>
        match e.download url with
        | some _ => some (ConvertedEvent.roomFile filename (e.upload url))
        | none => some (ConvertedEvent.roomText ("[File: " ++ filename ++ "]"))
      | none => some (ConvertedEvent.roomText ("[File: " ++ filename ++ "]"))
  else if a.type = AttachmentType.sticker then
    let url := match a.url with
      | some u => some u
      | none => best_photo_url a
    match url, env with
    | some u, some e =>
      match e.download u with
      | some size =>
        some (ConvertedEvent.stickerEvent "sticker" (e.upload u) "image/webp" size)
      | none => none
    | _, _ => none
  else if a.type = AttachmentType.video ∨ a.type = AttachmentType.voice ∨
      a.type = AttachmentType.audio then
    match a.url with
    | none => none
    | some url =>
      let msgtype := if a.type = AttachmentType.video then "m.video" else "m.audio"
      let filename := a.filename.getD (a.type.value ++ ".bin")
      match env with
      | some e =>
        match e.download url with
        | some _ => some (ConvertedEvent.roomMedia msgtype filename (e.upload url))
        | none =>
          some (ConvertedEvent.roomText ("[" ++ a.type.value ++ ": " ++ url ++ "]"))
      | none =>
        some (ConvertedEvent.roomText ("[" ++ a.type.value ++ ": " ++ url ++ "]"))
  else if a.type = AttachmentType.location then
    some (ConvertedEvent.roomLocation
      ("Location: geo:" ++ a.latitude.getD "None" ++ "," ++ a.longitude.getD "None")
      ("geo:" ++ a.latitude.getD "None" ++ "," ++ a.longitude.getD "None"))
  else none

/-- C3 (code bug): `AttachmentType.is_photo` declares `image` an alias of
`photo`, and the spec says converters accept either — but
`_convert_attachment` never consults `is_photo` and has no branch for
`image`, so an `image` attachment converts to nothing while the identical
`photo` attachment converts to an `m.image` event. -/
theorem image_alias_c3_bug :
    AttachmentType.image.is_photo = true ∧
      convert_attachment (some ⟨fun _ => some 42, fun _ => "mxc://host/media"⟩)
        ⟨AttachmentType.image, none, some "https://x/p.jpg", none, none, none, none⟩ =
        none ∧
      convert_attachment (some ⟨fun _ => some 42, fun _ => "mxc://host/media"⟩)
        ⟨AttachmentType.photo, none, some "https://x/p.jpg", none, none, none, none⟩ =
        some (ConvertedEvent.roomImage "photo.jpg" "mxc://host/media" "image/jpeg" 42) :=
  ⟨rfl, rfl, rfl⟩
